import Mathlib

/-!
A shallow embedding of the rusty-socks SOCKS5 proxy server (src/context.rs,
src/messages.rs, src/states.rs) for checking its natural-language
specification.

Byte streams are modelled as lists of naturals (each a byte value); the
fallible tokio read primitives become functions `Bytes → Except Error (α × Bytes)`
that consume a prefix of the stream, and writes become pure byte lists.
The outbound TCP connect performed in `process_await_client_request` is an
external effect and is passed in as an oracle `Except Error Unit`.
-/

namespace RustySocks

/-- The error enum of src/error.rs.  `IoError` stands for `Io(io::Error)`:
the payload of the underlying I/O error is irrelevant to the properties
proved here, so it is dropped. -/
inductive Error where
  | Generic (msg : String)
  | MalformedMessage (msg : String)
  | IoError
  | DnsError (msg : String)
  | Finished
deriving DecidableEq, Repr

/-- A byte stream: the sequence of bytes a reader will yield. -/
abbrev Bytes := List Nat

/-- tokio `read_u8`: one byte, or an I/O error (unexpected EOF) on an
exhausted stream. -/
def readU8 : Bytes → Except Error (Nat × Bytes)
  | [] => .error .IoError
  | b :: rest => .ok (b, rest)

/-- tokio `read_exact` into a buffer of length `n`: exactly `n` bytes, or an
I/O error when the stream ends first. -/
def readExact : Nat → Bytes → Except Error (Bytes × Bytes)
  | 0, input => .ok ([], input)
  | _ + 1, [] => .error .IoError
  | n + 1, b :: rest =>
    match readExact n rest with
    | .ok (bs, rem) => .ok (b :: bs, rem)
    | .error e => .error e

/-- tokio `read_u16`: two bytes, big-endian. -/
def readU16 (input : Bytes) : Except Error (Nat × Bytes) := do
  let (hi, input) ← readU8 input
  let (lo, input) ← readU8 input
  pure (hi * 256 + lo, input)

/-- tokio `read_u32`: four bytes, big-endian. -/
def readU32 (input : Bytes) : Except Error (Nat × Bytes) := do
  let (b0, input) ← readU8 input
  let (b1, input) ← readU8 input
  let (b2, input) ← readU8 input
  let (b3, input) ← readU8 input
  pure (((b0 * 256 + b1) * 256 + b2) * 256 + b3, input)

/-- A UTF-8 continuation byte, `0x80..=0xBF`. -/
def isCont (b : Nat) : Bool := 0x80 ≤ b && b < 0xC0

/-- Rust `String::from_utf8` validation/decoding (RFC 3629 well-formed UTF-8:
no overlong forms, no surrogates, code points at most U+10FFFF), producing
the decoded characters when the bytes are valid. -/
def utf8DecodeChars : List Nat → Option (List Char)
  | [] => some []
  | b :: rest =>
    if b < 0x80 then
      match utf8DecodeChars rest with
      | some cs => some (Char.ofNat b :: cs)
      | none => none
    else if b < 0xC2 then none
    else if b < 0xE0 then
      match rest with
      | b1 :: rest1 =>
        if isCont b1 then
          match utf8DecodeChars rest1 with
          | some cs => some (Char.ofNat ((b - 0xC0) * 0x40 + (b1 - 0x80)) :: cs)
          | none => none
        else none
      | [] => none
    else if b < 0xF0 then
      match rest with
      | b1 :: b2 :: rest2 =>
        if (if b = 0xE0 then decide (0xA0 ≤ b1) && decide (b1 < 0xC0)
            else if b = 0xED then decide (0x80 ≤ b1) && decide (b1 < 0xA0)
            else isCont b1) && isCont b2 then
          match utf8DecodeChars rest2 with
          | some cs =>
            some (Char.ofNat ((b - 0xE0) * 0x1000 + (b1 - 0x80) * 0x40 + (b2 - 0x80)) :: cs)
          | none => none
        else none
      | _ => none
    else if b < 0xF5 then
      match rest with
      | b1 :: b2 :: b3 :: rest3 =>
        if (if b = 0xF0 then decide (0x90 ≤ b1) && decide (b1 < 0xC0)
            else if b = 0xF4 then decide (0x80 ≤ b1) && decide (b1 < 0x90)
            else isCont b1) && isCont b2 && isCont b3 then
          match utf8DecodeChars rest3 with
          | some cs =>
            some (Char.ofNat
              ((b - 0xF0) * 0x40000 + (b1 - 0x80) * 0x1000 + (b2 - 0x80) * 0x40 + (b3 - 0x80)) :: cs)
          | none => none
        else none
      | _ => none
    else none

/-- Rust `String::from_utf8` on a byte vector, as an `Option`. -/
def stringFromUtf8 (bs : Bytes) : Option String :=
  match utf8DecodeChars bs with
  | some cs => some ⟨cs⟩
  | none => none

/-- `ReadString::read_string` (src/messages.rs): one length byte, that many
bytes via `read_exact`, then `String::from_utf8`, failing with
`MalformedMessage` when the bytes are not valid UTF-8. -/
def readString (input : Bytes) : Except Error (String × Bytes) := do
  let (length, input) ← readU8 input
  let (domain, input) ← readExact length input
  match stringFromUtf8 domain with
  | some s => pure (s, input)
  | none => .error (.MalformedMessage "Invalid string in stream")

-- Wire enums of src/messages.rs

/-- `AuthenticationMethod`: `NoAuthentication = 0`, `UsernamePassword = 2`. -/
inductive AuthenticationMethod where
  | NoAuthentication
  | UsernamePassword
deriving DecidableEq, Repr

/-- The wire byte of an `AuthenticationMethod` (its discriminant). -/
def AuthenticationMethod.toU8 : AuthenticationMethod → Nat
  | .NoAuthentication => 0
  | .UsernamePassword => 2

/-- `AuthenticationMethod::from_u8` (derived `Primitive`). -/
def AuthenticationMethod.fromU8 : Nat → Option AuthenticationMethod
  | 0 => some .NoAuthentication
  | 2 => some .UsernamePassword
  | _ => none

/-- `Command`: `Connect = 1`. -/
inductive Command where
  | Connect
deriving DecidableEq, Repr

/-- `Command::from_u8` (derived `Primitive`). -/
def Command.fromU8 : Nat → Option Command
  | 1 => some .Connect
  | _ => none

/-- `IpAddr`: a v4 address as its `u32` value, or a v6 address as its 16
octets. -/
inductive IpAddr where
  | V4 (addr : Nat)
  | V6 (octets : Bytes)
deriving DecidableEq, Repr

/-- `Address`: an IP address or a domain name. -/
inductive Address where
  | Ip (addr : IpAddr)
  | Domain (name : String)
deriving DecidableEq, Repr

/-- `AddressType`: `Ipv4 = 1`, `Domain = 3`, `Ipv6 = 4`. -/
inductive AddressType where
  | Ipv4
  | Domain
  | Ipv6
deriving DecidableEq, Repr

/-- The wire byte of an `AddressType`. -/
def AddressType.toU8 : AddressType → Nat
  | .Ipv4 => 1
  | .Domain => 3
  | .Ipv6 => 4

/-- `AddressType::from_u8` (derived `Primitive`). -/
def AddressType.fromU8 : Nat → Option AddressType
  | 1 => some .Ipv4
  | 3 => some .Domain
  | 4 => some .Ipv6
  | _ => none

/-- `ResponseCode`: `Success = 0`, `GeneralFailure = 1`. -/
inductive ResponseCode where
  | Success
  | GeneralFailure
deriving DecidableEq, Repr

/-- The wire byte of a `ResponseCode`. -/
def ResponseCode.toU8 : ResponseCode → Nat
  | .Success => 0
  | .GeneralFailure => 1

/-- `AuthStatusCode`: `Success = 0`, `Failure = 1`. -/
inductive AuthStatusCode where
  | Success
  | Failure
deriving DecidableEq, Repr

/-- The wire byte of an `AuthStatusCode`. -/
def AuthStatusCode.toU8 : AuthStatusCode → Nat
  | .Success => 0
  | .Failure => 1

-- Message structs of src/messages.rs

/-- `HelloRequest { version, methods }`. -/
structure HelloRequest where
  version : Nat
  methods : List AuthenticationMethod
deriving DecidableEq, Repr

/-- `HelloResponse { version, method }`. -/
structure HelloResponse where
  version : Nat
  method : AuthenticationMethod
deriving DecidableEq, Repr

/-- `AuthRequest { version, username, password }`. -/
structure AuthRequest where
  version : Nat
  username : String
  password : String
deriving DecidableEq, Repr

/-- `AuthResponse { version, status }`. -/
structure AuthResponse where
  version : Nat
  status : AuthStatusCode
deriving DecidableEq, Repr

/-- `ClientRequest { version, command, address, port }`. -/
structure ClientRequest where
  version : Nat
  command : Command
  address : Address
  port : Nat
deriving DecidableEq, Repr

/-- `RequestResponse { version, response_code, bind_address, port }`. -/
structure RequestResponse where
  version : Nat
  response_code : ResponseCode
  bind_address : Address
  port : Nat
deriving DecidableEq, Repr

-- Parsers (the `Parseable` impls of src/messages.rs)

/-- The method-list loop of `Parseable for HelloRequest`: read `n` method
bytes, mapping each through `AuthenticationMethod::from_u8` and failing with
`MalformedMessage("Unsupported method")` on an unknown byte. -/
def readMethods : Nat → Bytes → Except Error (List AuthenticationMethod × Bytes)
  | 0, input => .ok ([], input)
  | n + 1, input => do
    let (b, input) ← readU8 input
    match AuthenticationMethod.fromU8 b with
    | some m => do
      let (ms, input) ← readMethods n input
      pure (m :: ms, input)
    | none => .error (.MalformedMessage "Unsupported method")

/-- `HelloRequest::new`: version byte, method count, then the method list. -/
def HelloRequest.new (input : Bytes) : Except Error (HelloRequest × Bytes) := do
  let (version, input) ← readU8 input
  let (method_count, input) ← readU8 input
  let (methods, input) ← readMethods method_count input
  pure ({ version, methods }, input)

/-- `AuthRequest::new`: version byte (must be 1), then the username and
password as length-prefixed strings. -/
def AuthRequest.new (input : Bytes) : Except Error (AuthRequest × Bytes) := do
  let (version, input) ← readU8 input
  if version ≠ 1 then
    .error (.Generic "Unsupported auth version")
  else do
    let (username, input) ← readString input
    let (password, input) ← readString input
    pure ({ version, username, password }, input)

/-- `ClientRequest::new`: version, command, reserved byte (skipped), address
type, address (by type), then the port. -/
def ClientRequest.new (input : Bytes) : Except Error (ClientRequest × Bytes) := do
  let (version, input) ← readU8 input
  let (cmdByte, input) ← readU8 input
  match Command.fromU8 cmdByte with
  | none => .error (.MalformedMessage "Unsupported command")
  | some command => do
    let (_reserved, input) ← readU8 input
    let (atypByte, input) ← readU8 input
    match AddressType.fromU8 atypByte with
    | none => .error (.MalformedMessage "Invalid address type")
    | some addressType => do
      let (address, input) ←
        match addressType with
        | .Ipv4 => do
          let (addr, input) ← readU32 input
          pure (Address.Ip (IpAddr.V4 addr), input)
        | .Ipv6 => do
          let (buf, input) ← readExact 16 input
          pure (Address.Ip (IpAddr.V6 buf), input)
        | .Domain => do
          let (s, input) ← readString input
          pure (Address.Domain s, input)
      let (port, input) ← readU16 input
      pure ({ version, command, address, port }, input)

-- Serializers (the `Writeable` impls of src/messages.rs); writes are modelled
-- as the byte sequences put on the wire (each impl ends with a flush).

/-- The two big-endian bytes of a `u16`. -/
def u16be (n : Nat) : Bytes := [n / 256 % 256, n % 256]

/-- `Ipv4Addr::octets` of an address held as its `u32` value: four
big-endian bytes. -/
def u32beOctets (n : Nat) : Bytes :=
  [n / 0x1000000 % 256, n / 0x10000 % 256, n / 0x100 % 256, n % 256]

/-- `Writeable for HelloResponse`: version byte then method byte. -/
def HelloResponse.write (m : HelloResponse) : Bytes :=
  [m.version, m.method.toU8]

/-- `Writeable for AuthResponse`: version byte then status byte. -/
def AuthResponse.write (m : AuthResponse) : Bytes :=
  [m.version, m.status.toU8]

/-- `Writeable for RequestResponse`: version, code, reserved 0, address type
and address octets, then the port.  The `Address::Domain` arm of the source
panics ("Domain used for bind address"); the panic is modelled as `none`. -/
def RequestResponse.write (m : RequestResponse) : Option Bytes :=
  match m.bind_address with
  | .Ip (.V4 addr) =>
    some ([m.version, m.response_code.toU8, 0]
      ++ (AddressType.Ipv4.toU8 :: u32beOctets addr) ++ u16be m.port)
  | .Ip (.V6 octets) =>
    some ([m.version, m.response_code.toU8, 0]
      ++ (AddressType.Ipv6.toU8 :: octets) ++ u16be m.port)
  | .Domain _ => none

-- src/context.rs

/-- `Credentials`: the configured username/password pair. -/
structure Credentials where
  username : String
  password : String
deriving DecidableEq, Repr

/-- `Context`: the authentication policy, holding optional credentials. -/
structure Context where
  credentials : Option Credentials
deriving DecidableEq, Repr

/-- The expected method computed at the top of
`Context::select_authentication`: `UsernamePassword` when credentials are
configured, `NoAuthentication` otherwise. -/
def Context.expected_method (ctx : Context) : AuthenticationMethod :=
  match ctx.credentials with
  | some _ => .UsernamePassword
  | none => .NoAuthentication

/-- `Context::select_authentication`: `Some(expected)` when the offered list
contains the expected method, `None` otherwise. -/
def Context.select_authentication (ctx : Context)
    (methods : List AuthenticationMethod) : Option AuthenticationMethod :=
  if methods.contains ctx.expected_method then some ctx.expected_method
  else none

/-- `Context::authenticate`: with configured credentials, equality of both
strings; with no credentials, `false`. -/
def Context.authenticate (ctx : Context) (username password : String) : Bool :=
  match ctx.credentials with
  | some credentials =>
    credentials.username == username && credentials.password == password
  | none => false

-- src/states.rs

/-- The `State` enum.  The streams owned by each variant live outside the
embedding (their contents are the `Bytes` arguments of the step functions),
so the variants here are bare tags. -/
inductive State where
  | AwaitingHello
  | AwaitingAuth
  | AwaitingClientRequest
  | Proxying
  | Finished
deriving DecidableEq, Repr

/-- `State::is_finished`. -/
def State.is_finished : State → Bool
  | .Finished => true
  | _ => false

instance {ε α : Type} [DecidableEq ε] [DecidableEq α] : DecidableEq (Except ε α) := fun a b =>
  match a, b with
  | .ok x, .ok y =>
    if h : x = y then isTrue (by rw [h])
    else isFalse (fun hh => h (Except.ok.inj hh))
  | .error x, .error y =>
    if h : x = y then isTrue (by rw [h])
    else isFalse (fun hh => h (Except.error.inj hh))
  | .ok _, .error _ => isFalse (fun hh => Except.noConfusion hh)
  | .error _, .ok _ => isFalse (fun hh => Except.noConfusion hh)

/-- The observable outcome of one `process` step: the returned next state
(or error), the bytes written to the client stream, and every
`RequestResponse` value handed to the serializer during the step. -/
structure StepOutput where
  next : Except Error State
  written : Bytes
  responses : List RequestResponse
deriving DecidableEq, Repr

/-- `State::process_await_hello`: parse a `HelloRequest`; reject version ≠ 5
and an empty method list; on no common method return `Finished` (writing
nothing); otherwise write the `HelloResponse` and move to
`AwaitingClientRequest` (NoAuthentication) or `AwaitingAuth`
(UsernamePassword). -/
def State.process_await_hello (ctx : Context) (input : Bytes) : StepOutput :=
  match HelloRequest.new input with
  | .error e => ⟨.error e, [], []⟩
  | .ok (request, _rest) =>
    if request.version ≠ 5 then
      ⟨.error (.MalformedMessage
        ("Unsupported socks version " ++ toString request.version)), [], []⟩
    else if request.methods.length = 0 then
      ⟨.error (.MalformedMessage "No methods provided"), [], []⟩
    else
      match ctx.select_authentication request.methods with
      | none => ⟨.ok .Finished, [], []⟩
      | some selectedMethod =>
        let written := HelloResponse.write ⟨request.version, selectedMethod⟩
        match selectedMethod with
        | .NoAuthentication => ⟨.ok .AwaitingClientRequest, written, []⟩
        | .UsernamePassword => ⟨.ok .AwaitingAuth, written, []⟩

/-- `State::process_await_auth`: parse an `AuthRequest`, authenticate, write
the `AuthResponse` carrying the resulting status, and return
`AwaitingClientRequest` regardless of the status. -/
def State.process_await_auth (ctx : Context) (input : Bytes) : StepOutput :=
  match AuthRequest.new input with
  | .error e => ⟨.error e, [], []⟩
  | .ok (request, _rest) =>
    let status :=
      match ctx.authenticate request.username request.password with
      | true => AuthStatusCode.Success
      | false => AuthStatusCode.Failure
    ⟨.ok .AwaitingClientRequest,
      AuthResponse.write ⟨request.version, status⟩, []⟩

/-- `State::process_await_client_request`: parse a `ClientRequest`, reject
version ≠ 5, attempt the outbound connect (`connect` is the oracle for
`TcpStream::connect`, whose `?` propagates the error directly); on success
write the success `RequestResponse` with bind address 0.0.0.0:0 and move to
`Proxying`. -/
def State.process_await_client_request (input : Bytes)
    (connect : Except Error Unit) : StepOutput :=
  match ClientRequest.new input with
  | .error e => ⟨.error e, [], []⟩
  | .ok (request, _rest) =>
    if request.version ≠ 5 then
      ⟨.error (.MalformedMessage "Invalid socks version"), [], []⟩
    else
      match connect with
      | .error e => ⟨.error e, [], []⟩
      | .ok _ =>
        let response : RequestResponse :=
          ⟨request.version, .Success, .Ip (.V4 0), 0⟩
        ⟨.ok .Proxying, (RequestResponse.write response).getD [], [response]⟩

/-- `State::process`: dispatch one step.  `State::do_proxy` discards the
relay result and always returns `Finished`; the bytes the relay moves are
modelled separately by `Proxier.run`, so the `Proxying` arm records no
writes of its own.  `process` on `Finished` is `Err(Error::Finished)`. -/
def State.process (ctx : Context) (input : Bytes)
    (connect : Except Error Unit) : State → StepOutput
  | .AwaitingHello => State.process_await_hello ctx input
  | .AwaitingAuth => State.process_await_auth ctx input
  | .AwaitingClientRequest => State.process_await_client_request input connect
  | .Proxying => ⟨.ok .Finished, [], []⟩
  | .Finished => ⟨.error .Finished, [], []⟩

-- The relay loop of src/states.rs

/-- One observable I/O action of a relay direction. -/
inductive IoEvent where
  | read (bytes : Bytes)
  | write (bytes : Bytes)
  | flush
deriving DecidableEq, Repr

/-- `Proxier::run`, one relay direction: repeatedly read a chunk (the script
lists the successive results of `self.reader.read`, an empty chunk being a
zero-byte read, i.e. EOF), and after each non-empty chunk `write_all` it and
flush before the next read.  On EOF the loop returns `Err(Error::Finished)`.
The result is the ordered I/O trace together with the loop's outcome;
`none` means the script ran out before an EOF, i.e. the loop is still
running.  Read and write errors, which `?` would propagate, are not in the
script's alphabet: the claims concern error-free executions. -/
def Proxier.run : List Bytes → List IoEvent × Option Error
  | [] => ([], none)
  | chunk :: rest =>
    if chunk.length = 0 then ([.read chunk], some .Finished)
    else
      let (trace, result) := Proxier.run rest
      (.read chunk :: .write chunk :: .flush :: trace, result)

/-- The bytes a trace writes, in order. -/
def writtenBytes : List IoEvent → Bytes
  | [] => []
  | .write bs :: rest => bs ++ writtenBytes rest
  | _ :: rest => writtenBytes rest

/-- Rank of a state in the progression
`AwaitingHello < AwaitingAuth < AwaitingClientRequest < Proxying < Finished`. -/
def State.rank : State → Nat
  | .AwaitingHello => 0
  | .AwaitingAuth => 1
  | .AwaitingClientRequest => 2
  | .Proxying => 3
  | .Finished => 4

/-! ## Theorems -/

/-- C1: the claim says a failed username/password authentication writes
`AuthResponse{Failure}` and then returns `Finished`.  The code does write the
failure response but then returns `AwaitingClientRequest` unconditionally
(src/states.rs line 97), so the unauthenticated client proceeds to the
request phase.  Evaluated at the failing input: credentials `("u","pw")`,
auth message bytes `01 01 75 02 70 71` (username "u", password "pq"). -/
theorem c1_auth_failure_still_advances :
    State.process_await_auth ⟨some ⟨"u", "pw"⟩⟩ [1, 1, 0x75, 2, 0x70, 0x71] =
      ⟨.ok .AwaitingClientRequest, [1, 1], []⟩ ∧
    (State.process_await_auth ⟨some ⟨"u", "pw"⟩⟩ [1, 1, 0x75, 2, 0x70, 0x71]).next ≠
      .ok .Finished := by
  decide

/-- C2: the claim says that on no common method the server writes a
`HelloResponse` with method byte `0xFF` and then finishes, and that on bytes
`05 01 01` it replies `05 FF`.  The code writes nothing in the
no-common-method branch (src/states.rs lines 66-68), and a hello offering
the unknown method byte `0x01` does not even parse: `HelloRequest::new`
fails with `MalformedMessage("Unsupported method")`, so no reply is ever
written. -/
theorem c2_no_method_writes_no_reply :
    State.process_await_hello ⟨some ⟨"u", "pw"⟩⟩ [5, 1, 0] =
      ⟨.ok .Finished, [], []⟩ ∧
    State.process_await_hello ⟨some ⟨"u", "pw"⟩⟩ [5, 1, 1] =
      ⟨.error (.MalformedMessage "Unsupported method"), [], []⟩ := by
  decide

/-- C3 counterexample: on a well-formed CONNECT request for 1.2.3.4:8080
whose outbound connect fails, the step writes nothing at all and hands no
`RequestResponse` to the serializer — contradicting the claimed best-effort
`GeneralFailure` reply. -/
theorem c3_counterexample :
    State.process_await_client_request [5, 1, 0, 1, 1, 2, 3, 4, 31, 144]
      (.error .IoError) = ⟨.error .IoError, [], []⟩ := by
  decide

/-- C3 (amended): when opening the outbound connection fails, the step
returns the original connect error immediately; nothing is written to the
client and no `RequestResponse` is emitted. -/
theorem c3_connect_failure_propagates (input : Bytes) (e : Error)
    (request : ClientRequest) (rest : Bytes)
    (hparse : ClientRequest.new input = .ok (request, rest))
    (hver : request.version = 5) :
    State.process_await_client_request input (.error e) = ⟨.error e, [], []⟩ := by
  unfold State.process_await_client_request
  rw [hparse]
  simp [hver]

/-- C3 witness: the amended behaviour at a concrete parsed request with a
concrete connect error. -/
theorem c3_witness :
    State.process_await_client_request [5, 1, 0, 1, 1, 2, 3, 4, 31, 144]
      (.error (.DnsError "nope")) = ⟨.error (.DnsError "nope"), [], []⟩ :=
  c3_connect_failure_propagates [5, 1, 0, 1, 1, 2, 3, 4, 31, 144]
    (.DnsError "nope") ⟨5, .Connect, .Ip (.V4 0x01020304), 8080⟩ []
    (by decide) rfl

/-- C4 counterexample: with no credentials configured, `authenticate`
returns `false`, not `true` as claimed. -/
theorem c4_counterexample :
    Context.authenticate ⟨none⟩ "u" "p" = false ∧
    ¬ Context.authenticate ⟨none⟩ "u" "p" = true := by
  decide

/-- C4 (amended): `authenticate` returns `true` iff credentials are
configured and the submitted pair equals them byte-wise; in particular with
no credentials it returns `false` for every input. -/
theorem c4_authenticate_spec (c : Option Credentials) (u p : String) :
    Context.authenticate ⟨c⟩ u p = true ↔
      ∃ cred, c = some cred ∧ cred.username = u ∧ cred.password = p := by
  cases c with
  | none => simp [Context.authenticate]
  | some cred => simp [Context.authenticate]

lemma select_authentication_eq_if (ctx : Context)
    (methods : List AuthenticationMethod) :
    ctx.select_authentication methods =
      if ctx.expected_method ∈ methods then some ctx.expected_method else none := by
  simp [Context.select_authentication, List.elem_iff]

/-- C5: `select_authentication` returns `Some(expected)` exactly when the
expected method (`UsernamePassword` with credentials, `NoAuthentication`
without) occurs among the offered methods, `None` exactly when it does not,
and the result depends only on the multiset of offered methods (so ordering
and duplicates are irrelevant). -/
theorem c5_select_authentication_spec (ctx : Context)
    (methods : List AuthenticationMethod) :
    (ctx.select_authentication methods = some ctx.expected_method ↔
      ctx.expected_method ∈ methods) ∧
    (ctx.select_authentication methods = none ↔
      ctx.expected_method ∉ methods) ∧
    (∀ methods2 : List AuthenticationMethod, methods.Perm methods2 →
      ctx.select_authentication methods = ctx.select_authentication methods2) := by
  refine ⟨?_, ?_, ?_⟩
  · rw [select_authentication_eq_if]
    by_cases h : ctx.expected_method ∈ methods <;> simp [h]
  · rw [select_authentication_eq_if]
    by_cases h : ctx.expected_method ∈ methods <;> simp [h]
  · intro methods2 hperm
    rw [select_authentication_eq_if, select_authentication_eq_if]
    exact if_congr hperm.mem_iff rfl rfl

/-- C5 witness: the permutation-invariance conjunct applied to a concrete
swap of the two methods. -/
theorem c5_witness :
    Context.select_authentication ⟨none⟩
        [.NoAuthentication, .UsernamePassword] =
      Context.select_authentication ⟨none⟩
        [.UsernamePassword, .NoAuthentication] :=
  (c5_select_authentication_spec ⟨none⟩
      [.NoAuthentication, .UsernamePassword]).2.2
    [.UsernamePassword, .NoAuthentication]
    (List.Perm.swap AuthenticationMethod.UsernamePassword
      AuthenticationMethod.NoAuthentication [])

lemma writtenBytes_append (t1 t2 : List IoEvent) :
    writtenBytes (t1 ++ t2) = writtenBytes t1 ++ writtenBytes t2 := by
  induction t1 with
  | nil => simp [writtenBytes]
  | cons e rest ih =>
    cases e <;> simp [writtenBytes, ih]

lemma writtenBytes_triples_core (chunks : List Bytes) :
    writtenBytes
      (chunks.map fun c => [IoEvent.read c, IoEvent.write c, IoEvent.flush]).flatten =
      chunks.flatten := by
  induction chunks with
  | nil => simp [writtenBytes]
  | cons c rest ih =>
    simp [writtenBytes_append, writtenBytes, ih]

lemma writtenBytes_triples (chunks : List Bytes) :
    writtenBytes
      ((chunks.map fun c => [IoEvent.read c, IoEvent.write c, IoEvent.flush]).flatten
        ++ [IoEvent.read []]) = chunks.flatten := by
  rw [writtenBytes_append, writtenBytes_triples_core]
  simp [writtenBytes]

lemma proxier_run_eof (chunks : List Bytes) (h : ∀ c ∈ chunks, c ≠ []) :
    Proxier.run (chunks ++ [[]]) =
      ((chunks.map fun c => [IoEvent.read c, IoEvent.write c, IoEvent.flush]).flatten
        ++ [IoEvent.read []], some Error.Finished) := by
  induction chunks with
  | nil => simp [Proxier.run]
  | cons c rest ih =>
    have hc : c ≠ [] := h c (by simp)
    have hrest : ∀ x ∈ rest, x ≠ [] := fun x hx => h x (by simp [hx])
    have hlen : ¬ c.length = 0 := by simpa [List.length_eq_zero] using hc
    simp [Proxier.run, hlen, ih hrest]

lemma proxier_run_no_eof (chunks : List Bytes) (h : ∀ c ∈ chunks, c ≠ []) :
    (Proxier.run chunks).2 = none := by
  induction chunks with
  | nil => simp [Proxier.run]
  | cons c rest ih =>
    have hc : c ≠ [] := h c (by simp)
    have hrest : ∀ x ∈ rest, x ≠ [] := fun x hx => h x (by simp [hx])
    have hlen : ¬ c.length = 0 := by simpa [List.length_eq_zero] using hc
    simp [Proxier.run, hlen, ih hrest]

/-- C6: one relay direction, run on a script of non-empty reads followed by
EOF, produces exactly the trace read/write/flush per chunk — so each chunk
is written once, in order, and the write and flush of a chunk complete
before the next read is issued — and stops with `Err(Finished)` at the EOF
read; the bytes written are exactly the concatenation of the bytes read,
and without an EOF the loop never returns. -/
theorem c6_proxier_run_spec (chunks : List Bytes)
    (h : ∀ c ∈ chunks, c ≠ []) :
    Proxier.run (chunks ++ [[]]) =
      ((chunks.map fun c => [IoEvent.read c, IoEvent.write c, IoEvent.flush]).flatten
        ++ [IoEvent.read []], some Error.Finished) ∧
    writtenBytes (Proxier.run (chunks ++ [[]])).1 = chunks.flatten ∧
    (Proxier.run chunks).2 = none := by
  refine ⟨proxier_run_eof chunks h, ?_, proxier_run_no_eof chunks h⟩
  rw [proxier_run_eof chunks h]
  exact writtenBytes_triples chunks

/-- C6 witness: the relay trace for the concrete script `[[1,2],[3]]` plus
EOF. -/
theorem c6_witness :
    Proxier.run ([[1, 2], [3]] ++ [[]]) =
      (([[1, 2], [3]].map fun c => [IoEvent.read c, IoEvent.write c, IoEvent.flush]).flatten
        ++ [IoEvent.read []], some Error.Finished) ∧
    writtenBytes (Proxier.run ([[1, 2], [3]] ++ [[]])).1 = [[1, 2], [3]].flatten ∧
    (Proxier.run [[1, 2], [3]]).2 = none :=
  c6_proxier_run_spec [[1, 2], [3]] (by decide)

lemma readExact_short (n : Nat) (bytes : Bytes) (h : bytes.length < n) :
    readExact n bytes = .error .IoError := by
  induction n generalizing bytes with
  | zero => omega
  | succ n ih =>
    cases bytes with
    | nil => rfl
    | cons b rest =>
      have : rest.length < n := by simpa using h
      simp [readExact, ih rest this]

lemma readExact_ok (n : Nat) (bytes : Bytes) (h : n ≤ bytes.length) :
    readExact n bytes = .ok (bytes.take n, bytes.drop n) := by
  induction n generalizing bytes with
  | zero => simp [readExact]
  | succ n ih =>
    cases bytes with
    | nil => simp at h
    | cons b rest =>
      have : n ≤ rest.length := by simpa using h
      simp [readExact, ih rest this]

/-- C7 counterexample: a length byte of `0` is accepted by `read_string`,
producing the empty string — the claimed range `1..=255` for the length
byte is not enforced. -/
theorem c7_counterexample : readString [0] = .ok ("", []) := by
  decide

/-- C7 (amended): `read_string` reads one length byte `N` (any byte value,
`0` included), then exactly `N` bytes — failing with an I/O error when the
stream is shorter — and interprets them as UTF-8, failing with
`MalformedMessage` when they are not valid UTF-8; a length byte of `0` is
accepted and yields the empty string. -/
theorem c7_read_string_spec :
    (∀ bytes : Bytes, readString (0 :: bytes) = .ok ("", bytes)) ∧
    (∀ (n : Nat) (bytes : Bytes), bytes.length < n →
      readString (n :: bytes) = .error .IoError) ∧
    (∀ (n : Nat) (bytes : Bytes), n ≤ bytes.length →
      readString (n :: bytes) =
        match stringFromUtf8 (bytes.take n) with
        | some s => .ok (s, bytes.drop n)
        | none => .error (.MalformedMessage "Invalid string in stream")) := by
  refine ⟨?_, ?_, ?_⟩
  · intro bytes
    rfl
  · intro n bytes h
    unfold readString
    simp [readU8, Bind.bind, Except.bind, readExact_short n bytes h]
  · intro n bytes h
    unfold readString
    simp [readU8, Bind.bind, Except.bind, readExact_ok n bytes h]
    cases stringFromUtf8 (bytes.take n) <;> simp [pure, Except.pure]

/-- C7 witness: the UTF-8 conjunct applied at length byte `2` over the
stream `61 62 63`, consuming exactly two bytes. -/
theorem c7_witness : readString [2, 0x61, 0x62, 0x63] = .ok ("ab", [0x63]) := by
  have h := c7_read_string_spec.2.2 2 [0x61, 0x62, 0x63] (by decide)
  exact h.trans (by decide)

lemma fromU8_toU8 (m : AuthenticationMethod) :
    AuthenticationMethod.fromU8 m.toU8 = some m := by
  cases m <;> rfl

lemma readMethods_unknown (n : Nat) (ms : List AuthenticationMethod)
    (b : Nat) (extra : Bytes) (hb : AuthenticationMethod.fromU8 b = none)
    (hn : ms.length < n) :
    readMethods n (ms.map AuthenticationMethod.toU8 ++ b :: extra) =
      .error (.MalformedMessage "Unsupported method") := by
  induction ms generalizing n with
  | nil =>
    obtain ⟨m, rfl⟩ := Nat.exists_eq_succ_of_ne_zero (by omega : n ≠ 0)
    simp [readMethods, readU8, Bind.bind, Except.bind, hb]
  | cons a ms ih =>
    obtain ⟨m, rfl⟩ := Nat.exists_eq_succ_of_ne_zero (by omega : n ≠ 0)
    have : ms.length < m := by simpa using hn
    simp [readMethods, readU8, Bind.bind, Except.bind, Functor.map,
      Except.map, fromU8_toU8, ih m this]

/-- C8: the claim says an unknown method byte among the client-offered
methods is silently dropped with parsing succeeding.  In the code
(src/messages.rs lines 140-145) an unknown byte aborts the whole parse:
shown here false at the claim's own example bytes `05 01 01`. -/
theorem c8_counterexample :
    HelloRequest.new [5, 1, 1] =
      .error (.MalformedMessage "Unsupported method") := by
  decide

/-- C8 (amended): a method byte that is neither `0x00` nor `0x02` anywhere
in the offered-methods region of a `HelloRequest` makes parsing fail with
`MalformedMessage("Unsupported method")`; the byte is not dropped. -/
theorem c8_unknown_method_rejected (version : Nat)
    (ms : List AuthenticationMethod) (b : Nat) (extra : Bytes)
    (hb : AuthenticationMethod.fromU8 b = none) :
    HelloRequest.new
      (version :: (ms.length + 1 + extra.length) ::
        (ms.map AuthenticationMethod.toU8 ++ b :: extra)) =
      .error (.MalformedMessage "Unsupported method") := by
  unfold HelloRequest.new
  simp [readU8, Bind.bind, Except.bind, Functor.map, Except.map,
    readMethods_unknown (ms.length + 1 + extra.length) ms b extra hb (by omega)]

/-- C8 witness: the amended claim at version 5, offered methods
`[NoAuthentication]` followed by the unknown byte `9` and one further
offered byte. -/
theorem c8_witness :
    HelloRequest.new [5, 3, 0, 9, 0] =
      .error (.MalformedMessage "Unsupported method") := by
  have h := c8_unknown_method_rejected 5 [.NoAuthentication] 9 [0] rfl
  simpa using h

/-- C9: every `RequestResponse` a `process` step hands to the serializer has
bind address IPv4 0.0.0.0 — never `Domain(_)` — so `RequestResponse.write`
succeeds on it (`some` bytes) and the serializer's panicking `Domain` arm is
unreachable from the state machine. -/
theorem c9_bind_address_never_domain (s : State) (ctx : Context)
    (input : Bytes) (connect : Except Error Unit) (r : RequestResponse)
    (hr : r ∈ (State.process ctx input connect s).responses) :
    r.bind_address = Address.Ip (IpAddr.V4 0) ∧
    ∃ bs, RequestResponse.write r = some bs := by
  cases s with
  | AwaitingHello =>
    simp only [State.process] at hr
    unfold State.process_await_hello at hr
    repeat' split at hr
    all_goals simp at hr
  | AwaitingAuth =>
    simp only [State.process] at hr
    unfold State.process_await_auth at hr
    repeat' split at hr
    all_goals simp at hr
  | AwaitingClientRequest =>
    simp only [State.process] at hr
    unfold State.process_await_client_request at hr
    repeat' split at hr
    all_goals simp at hr
    subst hr
    exact ⟨rfl, ⟨_, rfl⟩⟩
  | Proxying => simp [State.process] at hr
  | Finished => simp [State.process] at hr

/-- C9 witness: a successful CONNECT step at a concrete input emits exactly
the 0.0.0.0 success response, which serializes. -/
theorem c9_witness :
    (⟨5, .Success, .Ip (.V4 0), 0⟩ : RequestResponse).bind_address =
      Address.Ip (IpAddr.V4 0) ∧
    ∃ bs, RequestResponse.write ⟨5, .Success, .Ip (.V4 0), 0⟩ = some bs :=
  c9_bind_address_never_domain .AwaitingClientRequest ⟨none⟩
    [5, 1, 0, 1, 1, 2, 3, 4, 31, 144] (.ok ()) ⟨5, .Success, .Ip (.V4 0), 0⟩
    (by decide)

/-- C10: whenever a `process` step returns a state, the state strictly
advances in the order `AwaitingHello < AwaitingAuth < AwaitingClientRequest
< Proxying < Finished` and its rank is at most 4 — since the rank starts at
0 and grows by at least 1 per successful step within `{0,...,4}`, any
connection reaches `Finished` or an error within four successful steps —
and `process` on `Finished` always returns `Err(Error::Finished)`. -/
theorem c10_process_strictly_advances :
    (∀ (ctx : Context) (input : Bytes) (connect : Except Error Unit)
      (s s' : State), (State.process ctx input connect s).next = .ok s' →
      s.rank < s'.rank ∧ s'.rank ≤ 4) ∧
    (∀ (ctx : Context) (input : Bytes) (connect : Except Error Unit),
      (State.process ctx input connect .Finished).next = .error .Finished) := by
  constructor
  · intro ctx input connect s s' h
    cases s with
    | AwaitingHello =>
      simp only [State.process] at h
      unfold State.process_await_hello at h
      repeat' split at h
      all_goals simp at h
      all_goals subst h
      all_goals decide
    | AwaitingAuth =>
      simp only [State.process] at h
      unfold State.process_await_auth at h
      repeat' split at h
      all_goals simp at h
      all_goals subst h
      all_goals decide
    | AwaitingClientRequest =>
      simp only [State.process] at h
      unfold State.process_await_client_request at h
      repeat' split at h
      all_goals simp at h
      all_goals subst h
      all_goals decide
    | Proxying =>
      simp [State.process] at h
      subst h
      decide
    | Finished => simp [State.process] at h
  · intro ctx input connect
    rfl

/-- C10 witness: a concrete successful hello step, from `AwaitingHello` to
`AwaitingClientRequest`. -/
theorem c10_witness :
    State.rank .AwaitingHello < State.rank .AwaitingClientRequest ∧
    State.rank .AwaitingClientRequest ≤ 4 :=
  c10_process_strictly_advances.1 ⟨none⟩ [5, 1, 0] (.ok ())
    .AwaitingHello .AwaitingClientRequest (by decide)

end RustySocks
